import Mathlib

/-!
# MedPolicyAgent orchestration core: formal model and verification

A shallow embedding of the job orchestration and incremental synchronization
logic of the MedPolicyAgent repository (`ScrapperAgent.py`,
`uhc_data_ingest.py`, `humana_data_ingest.py`, `humana_ingest_2.py`), with
theorems settling the frozen claims about it.  Machine integers are modelled
as `Nat`/`Int` (Python integers are unbounded), fallible operations thread an
explicit success environment, and the thread pool of `process_job_queue` is
modelled as a step relation on the agent's bookkeeping state.
-/

set_option maxHeartbeats 1000000

namespace MedPolicy

/-- Job lifecycle states (`ScrapperAgent.JobStatus`).  `scheduled` is declared
in the source but never assigned to a job. -/
inductive JobStatus where
  | pending
  | running
  | completed
  | failed
  | scheduled
  deriving DecidableEq, Repr

/-- Scraper/source tags (`ScrapperAgent.ScraperType`). -/
inductive ScraperType where
  | humana_claims
  | humana_policies
  | uhc_policies
  deriving DecidableEq, Repr

/-- The `.value` string of each `ScraperType` member. -/
def ScraperType.value : ScraperType → String
  | .humana_claims => "humana_claims"
  | .humana_policies => "humana_policies"
  | .uhc_policies => "uhc_policies"

/-- The outcome dictionary returned by the `run_*_scraper` helpers of
`HealthcarePolicyAgent` (`{"downloaded": ..., "skipped": ..., "errors": ...}`).
`skipped` is an `Int` because the source computes it by subtraction of Python
integers, which may in general go negative. -/
structure ScraperOutcome where
  downloaded : Nat
  skipped : Int
  errors : Nat
  deriving DecidableEq, Repr

/-- The fields of the `ScrapingJob` dataclass that the queue bookkeeping and
the claims touch (timestamps, `job_type`, `parameters` and `output_folder`
play no role in any claim and are omitted).  `errors` defaults to the empty
list as in `__post_init__`. -/
structure ScrapingJob where
  job_id : String
  scraper_type : ScraperType
  status : JobStatus
  files_downloaded : Nat := 0
  files_skipped : Int := 0
  errors : List String := []
  deriving DecidableEq, Repr

/-- Job id generation in `create_job`:
`job_id = f"{scraper_type}_{int(time.time())}"`, where `now` is the
whole-second timestamp `int(time.time())` at the moment of the call. -/
def createJobId (scraper_type : String) (now : Nat) : String :=
  scraper_type ++ "_" ++ Nat.repr now

/-- Source `create_job`: a freshly created job is PENDING, with zero counters and an
empty error list. -/
def create_job (scraper_type : ScraperType) (now : Nat) : ScrapingJob :=
  { job_id := createJobId scraper_type.value now
    scraper_type := scraper_type
    status := .pending }

/-- Source `run_job` on entry: the job is marked RUNNING. -/
def runJobStart (j : ScrapingJob) : ScrapingJob :=
  { j with status := .running }

/-- Source `run_job`, normal return of the scraper call: the counters are copied from
the result dictionary, a single summary message `"{n} errors occurred"` is
appended when the result reports a non-zero error count, and the job is marked
COMPLETED. -/
def run_job_success (j : ScrapingJob) (result : ScraperOutcome) : ScrapingJob :=
  { j with
    files_downloaded := result.downloaded
    files_skipped := result.skipped
    errors := j.errors ++
      (if result.errors > 0 then [Nat.repr result.errors ++ " errors occurred"] else [])
    status := .completed }

/-- Source `run_job`, exception branch: the stringified exception is appended to the
error list and the job is marked FAILED. -/
def run_job_failure (j : ScrapingJob) (e : String) : ScrapingJob :=
  { j with status := .failed, errors := j.errors ++ [e] }

/-- The queue bookkeeping state of `HealthcarePolicyAgent`: the FIFO pending
list `jobs_queue`, the set of dispatched jobs `active_jobs` (a dict keyed by
job id in the source; modelled as the list of its values), and the
`completed_jobs` history. -/
structure AgentState where
  jobs_queue : List ScrapingJob
  active_jobs : List ScrapingJob
  completed_jobs : List ScrapingJob
  deriving DecidableEq, Repr

/-- One observable transition of `process_job_queue` running with concurrency
limit `N` (`max_concurrent_jobs`):

* `dispatch`: while `len(self.active_jobs) < max_concurrent` and the queue is
  non-empty, the head of `jobs_queue` is popped, submitted to the executor and
  recorded in `active_jobs`; the worker's `run_job` immediately marks it
  RUNNING.  No condition on `scraper_type` is checked.
* `completeOk` / `completeFail`: a future that is done is collected; the job
  is removed from `active_jobs` and appended to `completed_jobs`, either with
  the scraper result (COMPLETED) or with the captured exception (FAILED). -/
inductive QueueStep (N : Nat) : AgentState → AgentState → Prop
  | dispatch (j : ScrapingJob) (q a c : List ScrapingJob) (h : a.length < N) :
      QueueStep N ⟨j :: q, a, c⟩ ⟨q, a ++ [runJobStart j], c⟩
  | completeOk (result : ScraperOutcome) (j : ScrapingJob)
      (q a₁ a₂ c : List ScrapingJob) :
      QueueStep N ⟨q, a₁ ++ j :: a₂, c⟩ ⟨q, a₁ ++ a₂, c ++ [run_job_success j result]⟩
  | completeFail (e : String) (j : ScrapingJob) (q a₁ a₂ c : List ScrapingJob) :
      QueueStep N ⟨q, a₁ ++ j :: a₂, c⟩ ⟨q, a₁ ++ a₂, c ++ [run_job_failure j e]⟩

/-- All job records known to the agent, in the lookup order of
`get_job_status` (active jobs, completed jobs, then the pending queue). -/
def AgentState.jobs (s : AgentState) : List ScrapingJob :=
  s.active_jobs ++ s.completed_jobs ++ s.jobs_queue

/-- Source `get_job_status`, restricted to the status field. -/
def AgentState.statusOf (s : AgentState) (id : String) : Option JobStatus :=
  (s.jobs.find? (fun j => j.job_id == id)).map ScrapingJob.status

/-- Well-formedness of the bookkeeping state: job ids are pairwise distinct,
queued jobs are PENDING and active jobs are RUNNING. -/
def WF (s : AgentState) : Prop :=
  (s.jobs.map ScrapingJob.job_id).Nodup
    ∧ (∀ j ∈ s.jobs_queue, j.status = .pending)
    ∧ (∀ j ∈ s.active_jobs, j.status = .running)

/-- The legal status edges of the job state machine. -/
inductive StatusTransition : JobStatus → JobStatus → Prop
  | start : StatusTransition .pending .running
  | finish : StatusTransition .running .completed
  | fail : StatusTransition .running .failed

lemma runJobStart_job_id (j : ScrapingJob) : (runJobStart j).job_id = j.job_id := rfl

lemma run_job_success_job_id (j : ScrapingJob) (r : ScraperOutcome) :
    (run_job_success j r).job_id = j.job_id := rfl

lemma run_job_failure_job_id (j : ScrapingJob) (e : String) :
    (run_job_failure j e).job_id = j.job_id := rfl

lemma active_le_of_queueStep {N : Nat} {s s' : AgentState} (h : QueueStep N s s')
    (hs : s.active_jobs.length ≤ N) : s'.active_jobs.length ≤ N := by
  cases h with
  | dispatch j q a c hlt => simpa using hlt
  | completeOk result j q a₁ a₂ c => simp at hs ⊢; omega
  | completeFail e j q a₁ a₂ c => simp at hs ⊢; omega

/-- Claim C6.  At any instant during queue processing, the number of active jobs
is at most the configured maximum concurrency `N`: every state reachable from
a start state of `process_job_queue` (no job dispatched yet) satisfies
`|active_jobs| ≤ N`, because `dispatch` fires only while
`len(active_jobs) < max_concurrent`. -/
theorem c6_active_le_max_concurrent (N : Nat) (q₀ h₀ : List ScrapingJob)
    (s : AgentState)
    (hreach : Relation.ReflTransGen (QueueStep N) ⟨q₀, [], h₀⟩ s) :
    s.active_jobs.length ≤ N := by
  induction hreach with
  | refl => simp
  | tail _ hstep ih => exact active_le_of_queueStep hstep ih

theorem c6_active_le_max_concurrent_witness :
    (AgentState.mk [] [] []).active_jobs.length ≤ 2 :=
  c6_active_le_max_concurrent 2 [] [] _ Relation.ReflTransGen.refl

/-- First of two PENDING jobs for the same source, used to exhibit that the
queue admits both concurrently. -/
def c1_jobA : ScrapingJob := ⟨"uhc_policies_1700000000", .uhc_policies, .pending, 0, 0, []⟩

/-- Second PENDING job for the same source as `c1_jobA`. -/
def c1_jobB : ScrapingJob := ⟨"uhc_policies_1700000001", .uhc_policies, .pending, 0, 0, []⟩

/-- Claim C1, counterexample.  `process_job_queue` does **not** enforce
at-most-one-active-job-per-source: from a queue holding two PENDING jobs for
the `uhc_policies` source and `max_concurrent_jobs = 2`, two dispatch steps
reach a state in which **both** jobs for that source are in the active set in
state RUNNING simultaneously.  The second job is not deferred. -/
theorem c1_per_source_exclusion_fails :
    Relation.ReflTransGen (QueueStep 2)
      ⟨[c1_jobA, c1_jobB], [], []⟩
      ⟨[], [runJobStart c1_jobA, runJobStart c1_jobB], []⟩
    ∧ (runJobStart c1_jobA).scraper_type = (runJobStart c1_jobB).scraper_type
    ∧ (runJobStart c1_jobA).status = .running
    ∧ (runJobStart c1_jobB).status = .running
    ∧ (runJobStart c1_jobA).job_id ≠ (runJobStart c1_jobB).job_id := by
  refine ⟨?_, by decide, by decide, by decide, by decide⟩
  exact Relation.ReflTransGen.tail
    (Relation.ReflTransGen.tail Relation.ReflTransGen.refl
      (QueueStep.dispatch c1_jobA [c1_jobB] [] [] (by decide)))
    (QueueStep.dispatch c1_jobB [] [runJobStart c1_jobA] [] (by decide))

/-- Claim C1, amended.  Admission into the active set is gated *only* by the
size check `len(active_jobs) < max_concurrent_jobs`: the head of the pending
queue is dispatched (and becomes RUNNING) even when a RUNNING job for the same
`scraper_type` is already in the active set.  A second same-source submission
therefore stays PENDING only while the active set is full, not until the first
job for its source terminates. -/
theorem c1_admission_ignores_source (N : Nat) (j j' : ScrapingJob)
    (q a c : List ScrapingJob) (hslot : a.length < N) (hactive : j' ∈ a)
    (hsame : j'.scraper_type = j.scraper_type) (hrun : j'.status = .running) :
    QueueStep N ⟨j :: q, a, c⟩ ⟨q, a ++ [runJobStart j], c⟩ :=
  QueueStep.dispatch j q a c hslot

theorem c1_admission_ignores_source_witness :
    QueueStep 2 ⟨[c1_jobB], [runJobStart c1_jobA], []⟩
      ⟨[], [runJobStart c1_jobA] ++ [runJobStart c1_jobB], []⟩ :=
  c1_admission_ignores_source 2 c1_jobB (runJobStart c1_jobA) []
    [runJobStart c1_jobA] [] (by decide) (by decide) (by decide) (by decide)

/-- Claim C9, counterexample.  `run_job` does not make the error-list length
match the reported error counter: with a result reporting 2 errors, the job's
error list holds the single summary entry `"2 errors occurred"`, so its length
is 1, not 2. -/
theorem c9_error_list_length_ne_counter :
    (run_job_success ⟨"uhc_policies_1700000002", .uhc_policies, .running, 0, 0, []⟩
        ⟨5, 0, 2⟩).errors.length ≠ 2 := by
  decide

/-- Claim C9, amended.  When the scraper result reports a non-zero error
counter, `run_job` appends exactly one aggregated message
(`f"{result['errors']} errors occurred"`) to the fresh job's empty error
list, so the list length is 1 — it equals the reported counter only when the
counter is 1. -/
theorem c9_error_list_singleton (j : ScrapingJob) (result : ScraperOutcome)
    (hfresh : j.errors = []) (herr : 0 < result.errors) :
    (run_job_success j result).errors.length = 1 := by
  simp [run_job_success, hfresh, if_pos herr]

theorem c9_error_list_singleton_witness :
    (⟨"humana_claims_1700000003", .humana_claims, .running, 0, 0, []⟩ :
        ScrapingJob).errors = []
      ∧ 0 < (⟨4, 1, 3⟩ : ScraperOutcome).errors
      ∧ (run_job_success
          ⟨"humana_claims_1700000003", .humana_claims, .running, 0, 0, []⟩
          ⟨4, 1, 3⟩).errors.length = 1 :=
  ⟨rfl, by decide,
    c9_error_list_singleton _ _ rfl (by decide)⟩

/-- Claim C7.  Two `create_job` calls for the same scraper type during the same
epoch second produce the *same* job id (`f"{scraper_type}_{int(time.time())}"`
has only whole-second resolution), so the id list of a same-second burst has a
duplicate.  The claim that ids are unique under same-second bursts fails. -/
lemma of_statusOf_eq_some {s : AgentState} {id : String} {st : JobStatus}
    (h : s.statusOf id = some st) :
    ∃ j ∈ s.jobs, j.job_id = id ∧ j.status = st := by
  unfold AgentState.statusOf at h
  cases hf : s.jobs.find? (fun j => j.job_id == id) with
  | none => rw [hf] at h; simp at h
  | some j =>
    rw [hf] at h
    refine ⟨j, List.mem_of_find?_eq_some hf, ?_, ?_⟩
    · have := List.find?_some hf
      simpa using this
    · simpa using h

lemma eq_of_mem_jobs_of_id {s : AgentState}
    (hnd : (s.jobs.map ScrapingJob.job_id).Nodup) {j₁ j₂ : ScrapingJob}
    (h1 : j₁ ∈ s.jobs) (h2 : j₂ ∈ s.jobs) (hid : j₁.job_id = j₂.job_id) :
    j₁ = j₂ :=
  List.inj_on_of_nodup_map hnd h1 h2 hid

lemma queue_case_split {s : AgentState} (hnd : (s.jobs.map ScrapingJob.job_id).Nodup)
    {j j' j₀ m : ScrapingJob} {id : String}
    (hj : j ∈ s.jobs) (hj₀ : j₀ ∈ s.jobs)
    (hj' : j' ∈ s.jobs ∨ j' = m) (hm : m.job_id = j₀.job_id)
    (hid : j.job_id = id) (hid' : j'.job_id = id) :
    j = j' ∨ (j = j₀ ∧ j' = m) := by
  rcases hj' with h | h
  · exact Or.inl (eq_of_mem_jobs_of_id hnd hj h (hid.trans hid'.symm))
  · refine Or.inr ⟨?_, h⟩
    subst h
    exact eq_of_mem_jobs_of_id hnd hj hj₀ ((hid.trans hid'.symm).trans hm)

/-- Claim C3.  Along any transition of the queue, a job's observable status
either stays the same or moves along one of the legal edges
PENDING→RUNNING, RUNNING→COMPLETED, RUNNING→FAILED.  In particular no job
re-enters RUNNING and no job leaves a terminal state. -/
theorem c3_status_transitions (N : Nat) (s s' : AgentState) (hwf : WF s)
    (hstep : QueueStep N s s') (id : String) (st st' : JobStatus)
    (h1 : s.statusOf id = some st) (h2 : s'.statusOf id = some st') :
    st = st' ∨ StatusTransition st st' := by
  obtain ⟨j, hjmem, hjid, hjst⟩ := of_statusOf_eq_some h1
  obtain ⟨j', hjmem', hjid', hjst'⟩ := of_statusOf_eq_some h2
  obtain ⟨hnd, hq, ha⟩ := hwf
  cases hstep with
  | dispatch j₀ q a c hlt =>
    have hj'cases : j' ∈ AgentState.jobs ⟨j₀ :: q, a, c⟩ ∨ j' = runJobStart j₀ := by
      simp only [AgentState.jobs, List.mem_append, List.mem_cons,
        List.mem_singleton] at hjmem' ⊢
      tauto
    have hj₀mem : j₀ ∈ AgentState.jobs ⟨j₀ :: q, a, c⟩ := by simp [AgentState.jobs]
    rcases queue_case_split hnd hjmem hj₀mem hj'cases rfl hjid hjid' with h | ⟨hA, hB⟩
    · left; rw [← hjst, ← hjst', h]
    · have hp : j₀.status = JobStatus.pending := hq j₀ (by simp)
      have hr : (runJobStart j₀).status = JobStatus.running := rfl
      right
      rw [← hjst, hA, hp, ← hjst', hB, hr]
      exact StatusTransition.start
  | completeOk result j₀ q a₁ a₂ c =>
    have hj'cases : j' ∈ AgentState.jobs ⟨q, a₁ ++ j₀ :: a₂, c⟩
        ∨ j' = run_job_success j₀ result := by
      simp only [AgentState.jobs, List.mem_append, List.mem_cons,
        List.mem_singleton] at hjmem' ⊢
      tauto
    have hj₀mem : j₀ ∈ AgentState.jobs ⟨q, a₁ ++ j₀ :: a₂, c⟩ := by
      simp [AgentState.jobs]
    rcases queue_case_split hnd hjmem hj₀mem hj'cases rfl hjid hjid' with h | ⟨hA, hB⟩
    · left; rw [← hjst, ← hjst', h]
    · have hp : j₀.status = JobStatus.running := ha j₀ (by simp)
      have hr : (run_job_success j₀ result).status = JobStatus.completed := rfl
      right
      rw [← hjst, hA, hp, ← hjst', hB, hr]
      exact StatusTransition.finish
  | completeFail e j₀ q a₁ a₂ c =>
    have hj'cases : j' ∈ AgentState.jobs ⟨q, a₁ ++ j₀ :: a₂, c⟩
        ∨ j' = run_job_failure j₀ e := by
      simp only [AgentState.jobs, List.mem_append, List.mem_cons,
        List.mem_singleton] at hjmem' ⊢
      tauto
    have hj₀mem : j₀ ∈ AgentState.jobs ⟨q, a₁ ++ j₀ :: a₂, c⟩ := by
      simp [AgentState.jobs]
    rcases queue_case_split hnd hjmem hj₀mem hj'cases rfl hjid hjid' with h | ⟨hA, hB⟩
    · left; rw [← hjst, ← hjst', h]
    · have hp : j₀.status = JobStatus.running := ha j₀ (by simp)
      have hr : (run_job_failure j₀ e).status = JobStatus.failed := rfl
      right
      rw [← hjst, hA, hp, ← hjst', hB, hr]
      exact StatusTransition.fail

theorem c3_status_transitions_witness :
    WF ⟨[⟨"j1", .uhc_policies, .pending, 0, 0, []⟩], [], []⟩
      ∧ (AgentState.mk [⟨"j1", .uhc_policies, .pending, 0, 0, []⟩] [] []).statusOf "j1"
          = some .pending
      ∧ (AgentState.mk []
          [runJobStart ⟨"j1", .uhc_policies, .pending, 0, 0, []⟩] []).statusOf "j1"
          = some .running
      ∧ (JobStatus.pending = JobStatus.running
          ∨ StatusTransition .pending .running) := by
  refine ⟨by unfold WF; decide, by decide, by decide, ?_⟩
  exact c3_status_transitions 2
    ⟨[⟨"j1", .uhc_policies, .pending, 0, 0, []⟩], [], []⟩
    ⟨[], [runJobStart ⟨"j1", .uhc_policies, .pending, 0, 0, []⟩], []⟩
    (by unfold WF; decide)
    (QueueStep.dispatch ⟨"j1", .uhc_policies, .pending, 0, 0, []⟩ [] [] [] (by decide))
    "j1" .pending .running (by decide) (by decide)

theorem c7_same_second_ids_collide :
    ¬ (([create_job .uhc_policies 1700000000,
         create_job .uhc_policies 1700000000]).map ScrapingJob.job_id).Nodup := by
  decide

/-! ## UHC scraper (`uhc_data_ingest.py`) -/

/-- Session counters of `UHCPolicyScraper.session_stats`. -/
structure SessionStats where
  policies_downloaded : Nat := 0
  rpub_downloaded : Nat := 0
  policies_skipped : Nat := 0
  rpub_skipped : Nat := 0
  errors : List String := []
  deriving DecidableEq, Repr

/-- The scraper state threaded through `download_pdf`: the url keys of
`metadata["downloaded_files"]` (the record values — filename, type, size,
timestamp — are never consulted by any decision in the source), the local
files present on disk (as full `folder/filename` paths), and the session
counters. -/
structure UhcState where
  downloaded_files : List String
  files : List String
  session_stats : SessionStats
  deriving DecidableEq, Repr

/-- Source `filename = url.split("/")[-1]`: the substring after the last `/`
(the whole string when there is no `/`, empty when the url ends in `/`),
computed directly on the character list. -/
def urlFilename (url : String) : String :=
  String.mk ((url.data.reverse.takeWhile (fun c => c != '/')).reverse)

/-- Source `os.path.join(folder, filename)` for a relative filename. -/
def pathJoin (folder filename : String) : String := folder ++ "/" ++ filename

/-- Source `is_already_downloaded`: membership of the url among the metadata keys
(the `file_type` argument is ignored by the source as well). -/
def is_already_downloaded (st : UhcState) (url : String) : Bool :=
  st.downloaded_files.contains url

/-- Source `mark_as_downloaded`, restricted to the consulted part of the record:
the url key is added to the metadata mapping. -/
def mark_as_downloaded (st : UhcState) (url : String) : UhcState :=
  { st with downloaded_files := st.downloaded_files ++ [url] }

/-- Source `UHCPolicyScraper.download_pdf`.  `ok url` says whether the HTTP GET for
`url` returns status 200 and the write succeeds (the non-200 branch and the
exception branch of the source both append one error entry and return
`False`; they are collapsed into the single failure branch).  Returns the
updated state and the boolean result. -/
def download_pdf (ok : String → Bool) (st : UhcState)
    (url folder file_type : String) : UhcState × Bool :=
  let filename := urlFilename url
  let filepath := pathJoin folder filename
  if is_already_downloaded st url then
    (if file_type = "policy" then
      { st with session_stats := { st.session_stats with
          policies_skipped := st.session_stats.policies_skipped + 1 } }
     else
      { st with session_stats := { st.session_stats with
          rpub_skipped := st.session_stats.rpub_skipped + 1 } }, true)
  else if filepath ∈ st.files then
    (mark_as_downloaded st url, true)
  else if ok url then
    (if file_type = "policy" then
      { mark_as_downloaded { st with files := st.files ++ [filepath] } url with
          session_stats := { st.session_stats with
            policies_downloaded := st.session_stats.policies_downloaded + 1 } }
     else
      { mark_as_downloaded { st with files := st.files ++ [filepath] } url with
          session_stats := { st.session_stats with
            rpub_downloaded := st.session_stats.rpub_downloaded + 1 } }, true)
  else
    ({ st with session_stats := { st.session_stats with
        errors := st.session_stats.errors ++ ["Failed to download " ++ url] } }, false)

/-- One candidate of a UHC fetch cycle: its url and its `file_type` tag
(`"policy"` for links found by `download_all_policies`, `"rpub"` for the RPUB
urls probed by `download_rpub_updates`). -/
def uhcProcessCandidate (ok : String → Bool) (pol_folder rpub_folder : String)
    (st : UhcState) (cand : String × String) : UhcState :=
  (download_pdf ok st cand.1
    (if cand.2 = "policy" then pol_folder else rpub_folder) cand.2).1

/-- A whole fetch cycle of `run_full_scrape`: `download_pdf` folded over the
candidate list produced by the Fetcher. -/
def uhcRun (ok : String → Bool) (pol_folder rpub_folder : String)
    (st : UhcState) (cands : List (String × String)) : UhcState :=
  cands.foldl (uhcProcessCandidate ok pol_folder rpub_folder) st

/-- The dictionary returned by `run_full_scrape`:
`downloaded = policies_downloaded + rpub_downloaded`, the two per-type
download counters, and `len(errors)`.  The session skip counters are not part
of the return value. -/
structure UhcScrapeResult where
  downloaded : Nat
  policies : Nat
  rpub : Nat
  errors : Nat
  deriving DecidableEq, Repr

/-- The return value of `UHCPolicyScraper.run_full_scrape` as a function of
the session counters. -/
def run_full_scrape_result (s : SessionStats) : UhcScrapeResult :=
  { downloaded := s.policies_downloaded + s.rpub_downloaded
    policies := s.policies_downloaded
    rpub := s.rpub_downloaded
    errors := s.errors.length }

/-- Source `HealthcarePolicyAgent.run_uhc_policies_scraper`'s translation of the
scrape result into the agent outcome dictionary: `skipped` is derived as
`result["policies"] + result["rpub"] - result["downloaded"]`. -/
def run_uhc_policies_scraper (r : UhcScrapeResult) : ScraperOutcome :=
  { downloaded := r.downloaded
    skipped := (r.policies : Int) + (r.rpub : Int) - (r.downloaded : Int)
    errors := r.errors }

/-- Claim C10.  The skipped count the agent records for a UHC job is always 0:
`run_full_scrape` returns `downloaded = policies + rpub`, so the agent's
subtraction `policies + rpub - downloaded` cancels identically, and the
outcome is unchanged no matter what the scraper's internal
`policies_skipped`/`rpub_skipped` session counters hold. -/
theorem c10_uhc_skipped_always_zero (s : SessionStats) (ps rs : Nat) :
    (run_uhc_policies_scraper (run_full_scrape_result s)).skipped = 0
      ∧ run_uhc_policies_scraper (run_full_scrape_result
            { s with policies_skipped := ps, rpub_skipped := rs })
          = run_uhc_policies_scraper (run_full_scrape_result s) := by
  constructor
  · simp [run_uhc_policies_scraper, run_full_scrape_result]
  · rfl

/-- The fingerprint store state used to exhibit C5: the url is recorded in
`downloaded_files` but no local file exists. -/
def c5_store : UhcState := ⟨["https://x.test/p.pdf"], [], ⟨0, 0, 0, 0, []⟩⟩

/-- Claim C5, counterexample.  A URL already recorded in the fingerprint store
whose local file is absent is *skipped*, not re-fetched: `download_pdf`
tests `is_already_downloaded` first and returns without consulting the
filesystem or attempting a download, incrementing the skip counter — there is
no MISSING-LOCALLY classification in the URL-keyed strategy. -/
theorem c5_missing_locally_not_refetched :
    "https://x.test/p.pdf" ∈ c5_store.downloaded_files
      ∧ pathJoin "uhc_policies/policies" (urlFilename "https://x.test/p.pdf")
          ∉ c5_store.files
      ∧ (download_pdf (fun _ => true) c5_store "https://x.test/p.pdf"
          "uhc_policies/policies" "policy").1.files = c5_store.files
      ∧ (download_pdf (fun _ => true) c5_store "https://x.test/p.pdf"
          "uhc_policies/policies" "policy").1.session_stats.policies_skipped
          = c5_store.session_stats.policies_skipped + 1 := by
  decide

/-- Claim C5, amended.  Under the URL-keyed strategy a candidate is fetched
exactly when its URL is new **and** its local file is missing.  In detail:
a URL already in the store is skipped outright (no filesystem check, no
fetch, store unchanged); a new URL whose target file already exists locally
is marked in the store without fetching; a new URL with no local file is
fetched and, on success, both the file and the store entry appear. -/
theorem c5_refetch_iff_new_and_missing (ok : String → Bool) (st : UhcState)
    (url folder file_type : String) :
    (url ∈ st.downloaded_files →
        (download_pdf ok st url folder file_type).1.files = st.files
          ∧ (download_pdf ok st url folder file_type).1.downloaded_files
              = st.downloaded_files)
      ∧ (url ∉ st.downloaded_files →
          pathJoin folder (urlFilename url) ∈ st.files →
          (download_pdf ok st url folder file_type).1.files = st.files
            ∧ (download_pdf ok st url folder file_type).1.downloaded_files
                = st.downloaded_files ++ [url])
      ∧ (url ∉ st.downloaded_files →
          pathJoin folder (urlFilename url) ∉ st.files →
          ok url = true →
          (download_pdf ok st url folder file_type).1.files
              = st.files ++ [pathJoin folder (urlFilename url)]
            ∧ (download_pdf ok st url folder file_type).1.downloaded_files
                = st.downloaded_files ++ [url]) := by
  refine ⟨fun hmem => ?_, fun hnew hloc => ?_, fun hnew hloc hok => ?_⟩
  · have hb : is_already_downloaded st url = true := by
      simp [is_already_downloaded, List.elem_eq_mem, hmem]
    by_cases hft : file_type = "policy" <;>
      simp [download_pdf, hb, hft]
  · have hb : is_already_downloaded st url = false := by
      simp [is_already_downloaded, List.elem_eq_mem, hnew]
    simp [download_pdf, hb, hloc, mark_as_downloaded]
  · have hb : is_already_downloaded st url = false := by
      simp [is_already_downloaded, List.elem_eq_mem, hnew]
    by_cases hft : file_type = "policy" <;>
      simp [download_pdf, hb, hloc, hok, hft, mark_as_downloaded]

theorem c5_refetch_iff_new_and_missing_witness :
    ("https://x.test/q.pdf" ∉ (⟨[], [], ⟨0, 0, 0, 0, []⟩⟩ : UhcState).downloaded_files)
      ∧ pathJoin "uhc_policies/policies" (urlFilename "https://x.test/q.pdf")
          ∉ (⟨[], [], ⟨0, 0, 0, 0, []⟩⟩ : UhcState).files
      ∧ (fun _ => true) "https://x.test/q.pdf" = true
      ∧ ((download_pdf (fun _ => true) ⟨[], [], ⟨0, 0, 0, 0, []⟩⟩
            "https://x.test/q.pdf" "uhc_policies/policies" "policy").1.files
          = ([] : List String) ++
              [pathJoin "uhc_policies/policies" (urlFilename "https://x.test/q.pdf")]
          ∧ (download_pdf (fun _ => true) ⟨[], [], ⟨0, 0, 0, 0, []⟩⟩
              "https://x.test/q.pdf" "uhc_policies/policies" "policy").1.downloaded_files
            = ([] : List String) ++ ["https://x.test/q.pdf"]) :=
  ⟨by decide, by decide, rfl,
    (c5_refetch_iff_new_and_missing (fun _ => true) ⟨[], [], ⟨0, 0, 0, 0, []⟩⟩
      "https://x.test/q.pdf" "uhc_policies/policies" "policy").2.2
      (by decide) (by decide) rfl⟩

/-! ## Humana claims-payment scraper (`humana_data_ingest.py`) -/

/-- One entry of `policy_entries` / of the persisted
`humana_policies_metadata.json`: remote url, cleaned title, normalized
publish date, and the derived safe filename. -/
structure HumanaPolicy where
  url : String
  title : String
  publish_date : String
  filename : String
  deriving DecidableEq, Repr

/-- Source `load_previous_metadata`: the JSON list becomes the dict
`{entry["title"]: entry for entry in ...}`; on duplicate titles the later
entry wins, so lookup returns the *last* entry with the given title. -/
def load_previous_metadata (meta : List HumanaPolicy) (title : String) :
    Option HumanaPolicy :=
  meta.reverse.find? (fun e => e.title == title)

/-- Loop state of the download loop of `scrape_claims_payment`: the three
counters, the two lists of the changes report (the source stores a small
dict per updated policy; only the lengths are consumed downstream, so the
element is modelled as the candidate itself), and the filenames present in
`SAVE_DIR`. -/
structure HumanaSyncState where
  downloaded : Nat := 0
  skipped : Nat := 0
  updated : Nat := 0
  new_policies : List HumanaPolicy := []
  updated_policies : List HumanaPolicy := []
  files : List String := []
  deriving DecidableEq, Repr

/-- The classification part of the loop body: NEW when the title is absent
from the previous metadata, UPDATED when present with a different publish
date; returns the `needs_download` flag from classification together with the
updated changes report. -/
def humanaClassify (old : String → Option HumanaPolicy) (st : HumanaSyncState)
    (policy : HumanaPolicy) : Bool × HumanaSyncState :=
  match old policy.title with
  | none => (true, { st with new_policies := st.new_policies ++ [policy] })
  | some olde =>
      if olde.publish_date ≠ policy.publish_date then
        (true, { st with updated := st.updated + 1,
                         updated_policies := st.updated_policies ++ [policy] })
      else (false, st)

/-- One iteration of the download loop of `scrape_claims_payment`:
classification, the `not os.path.exists(filepath)` override, then the
download attempt (`ok policy` = the `requests.get`/write succeeds).  A failed
download is only printed: no counter and no error entry is touched. -/
def humanaProcessPolicy (old : String → Option HumanaPolicy)
    (ok : HumanaPolicy → Bool) (st : HumanaSyncState) (policy : HumanaPolicy) :
    HumanaSyncState :=
  let cls := humanaClassify old st policy
  let needs_download := cls.1 || !(cls.2.files.contains policy.filename)
  if needs_download then
    if ok policy then
      { cls.2 with downloaded := cls.2.downloaded + 1,
                   files := cls.2.files ++ [policy.filename] }
    else cls.2
  else { cls.2 with skipped := cls.2.skipped + 1 }

/-- Result of one `scrape_claims_payment` run: the metadata file (written
with the *full* fresh candidate list before the download loop starts) and the
final loop state. -/
structure HumanaSyncResult where
  metadata : List HumanaPolicy
  final : HumanaSyncState
  deriving DecidableEq, Repr

/-- Source `scrape_claims_payment`, from the point where the Fetcher has produced
`policy_entries`: the metadata file is saved first, then the download loop
runs over all candidates.  `old_metadata` is the previously persisted list,
`files₀` the filenames already on disk, `ok` the download environment. -/
def scrape_claims_payment (old_metadata : List HumanaPolicy)
    (files₀ : List String) (ok : HumanaPolicy → Bool)
    (policy_entries : List HumanaPolicy) : HumanaSyncResult :=
  { metadata := policy_entries
    final := policy_entries.foldl
      (humanaProcessPolicy (load_previous_metadata old_metadata) ok)
      { files := files₀ } }

/-- Source `HealthcarePolicyAgent.run_humana_claims_scraper`'s outcome: `downloaded`
is read from the changes report (`len(new) + len(updated)` — a
classification count, not the count of successful downloads), `skipped` is
the metadata length minus that, and `errors` is hard-coded to 0. -/
def run_humana_claims_outcome (r : HumanaSyncResult) : ScraperOutcome :=
  { downloaded := r.final.new_policies.length + r.final.updated_policies.length
    skipped := (r.metadata.length : Int)
      - ((r.final.new_policies.length : Int) + (r.final.updated_policies.length : Int))
    errors := 0 }

lemma humanaClassify_files (old : String → Option HumanaPolicy)
    (st : HumanaSyncState) (p : HumanaPolicy) :
    (humanaClassify old st p).2.files = st.files := by
  unfold humanaClassify
  cases old p.title with
  | none => rfl
  | some e =>
    dsimp only
    split <;> rfl

lemma humanaClassify_counts (old : String → Option HumanaPolicy)
    (st : HumanaSyncState) (p : HumanaPolicy) :
    (humanaClassify old st p).2.downloaded = st.downloaded
      ∧ (humanaClassify old st p).2.skipped = st.skipped := by
  unfold humanaClassify
  cases old p.title with
  | none => exact ⟨rfl, rfl⟩
  | some e =>
    dsimp only
    split <;> exact ⟨rfl, rfl⟩

lemma mem_files_humanaProcessPolicy {f : String}
    (old : String → Option HumanaPolicy) (ok : HumanaPolicy → Bool)
    (st : HumanaSyncState) (p : HumanaPolicy) (h : f ∈ st.files) :
    f ∈ (humanaProcessPolicy old ok st p).files := by
  unfold humanaProcessPolicy
  dsimp only
  split
  · split
    · simp [humanaClassify_files, h]
    · simp [humanaClassify_files, h]
  · simp [humanaClassify_files, h]

lemma filename_mem_humanaProcessPolicy
    (old : String → Option HumanaPolicy) (ok : HumanaPolicy → Bool)
    (st : HumanaSyncState) (p : HumanaPolicy) (hok : ok p = true) :
    p.filename ∈ (humanaProcessPolicy old ok st p).files := by
  unfold humanaProcessPolicy
  dsimp only
  split
  · simp [hok, humanaClassify_files]
  · next hneeds =>
    show p.filename ∈ (humanaClassify old st p).2.files
    rw [humanaClassify_files]
    by_contra hmem
    exact hneeds (by simp [humanaClassify_files, List.elem_eq_mem, hmem])

lemma mem_files_humanaFold {f : String}
    (old : String → Option HumanaPolicy) (ok : HumanaPolicy → Bool)
    (l : List HumanaPolicy) :
    ∀ st : HumanaSyncState, f ∈ st.files →
      f ∈ (l.foldl (humanaProcessPolicy old ok) st).files := by
  induction l with
  | nil => intro st h; simpa using h
  | cons q tl ih =>
    intro st h
    rw [List.foldl_cons]
    exact ih _ (mem_files_humanaProcessPolicy old ok st q h)

lemma filename_mem_humanaFold
    (old : String → Option HumanaPolicy) (ok : HumanaPolicy → Bool)
    (l : List HumanaPolicy) :
    ∀ (st : HumanaSyncState) (p : HumanaPolicy), (∀ q ∈ l, ok q = true) →
      p ∈ l → p.filename ∈ (l.foldl (humanaProcessPolicy old ok) st).files := by
  induction l with
  | nil => intro st p _ hp; cases hp
  | cons q tl ih =>
    intro st p hok hp
    rw [List.foldl_cons]
    rcases List.mem_cons.mp hp with h | h
    · subst h
      exact mem_files_humanaFold old ok tl _
        (filename_mem_humanaProcessPolicy old ok st p (hok p (List.mem_cons_self p tl)))
    · exact ih _ p (fun r hr => hok r (List.mem_cons_of_mem q hr)) h

lemma humanaProcessPolicy_skip {e : HumanaPolicy}
    (old : String → Option HumanaPolicy) (ok : HumanaPolicy → Bool)
    (st : HumanaSyncState) (p : HumanaPolicy) (he : old p.title = some e)
    (hd : e.publish_date = p.publish_date) (hf : p.filename ∈ st.files) :
    humanaProcessPolicy old ok st p = { st with skipped := st.skipped + 1 } := by
  unfold humanaProcessPolicy humanaClassify
  rw [he]
  simp [hd, List.elem_eq_mem, hf]

lemma humanaFold_all_skip (old : String → Option HumanaPolicy)
    (ok : HumanaPolicy → Bool) (l : List HumanaPolicy) :
    ∀ st : HumanaSyncState,
      (∀ p ∈ l, (∃ e, old p.title = some e ∧ e.publish_date = p.publish_date)
          ∧ p.filename ∈ st.files) →
      l.foldl (humanaProcessPolicy old ok) st
        = { st with skipped := st.skipped + l.length } := by
  induction l with
  | nil => intro st _; rfl
  | cons q tl ih =>
    intro st h
    obtain ⟨⟨e, he, hd⟩, hf⟩ := h q (List.mem_cons_self q tl)
    rw [List.foldl_cons, humanaProcessPolicy_skip old ok st q he hd hf]
    rw [ih { st with skipped := st.skipped + 1 }
      (fun p hp => ⟨(h p (List.mem_cons_of_mem q hp)).1,
        (h p (List.mem_cons_of_mem q hp)).2⟩)]
    simp only [List.length_cons]
    congr 1
    omega

lemma load_previous_metadata_self {p : HumanaPolicy} {cands : List HumanaPolicy}
    (hp : p ∈ cands)
    (hcoh : ∀ a ∈ cands, ∀ b ∈ cands, a.title = b.title →
      a.publish_date = b.publish_date) :
    ∃ e, load_previous_metadata cands p.title = some e
      ∧ e.publish_date = p.publish_date := by
  unfold load_previous_metadata
  cases hfind : cands.reverse.find? (fun e => e.title == p.title) with
  | none =>
    exfalso
    have := List.find?_eq_none.mp hfind p (List.mem_reverse.mpr hp)
    simp at this
  | some e =>
    have hmem : e ∈ cands := List.mem_reverse.mp (List.mem_of_find?_eq_some hfind)
    have ht : e.title = p.title := by
      have := List.find?_some hfind
      simpa using this
    exact ⟨e, rfl, hcoh e hmem p hp ht⟩

lemma download_pdf_skip {url : String} (ok : String → Bool) (st : UhcState)
    (folder ft : String) (h : url ∈ st.downloaded_files) :
    (download_pdf ok st url folder ft).1
      = if ft = "policy" then
          { st with session_stats := { st.session_stats with
              policies_skipped := st.session_stats.policies_skipped + 1 } }
        else
          { st with session_stats := { st.session_stats with
              rpub_skipped := st.session_stats.rpub_skipped + 1 } } := by
  have hb : is_already_downloaded st url = true := by
    simp [is_already_downloaded, List.elem_eq_mem, h]
  by_cases hft : ft = "policy" <;> simp [download_pdf, hb, hft]

lemma mem_downloaded_files_download_pdf {u : String} (ok : String → Bool)
    (st : UhcState) (url folder ft : String) (h : u ∈ st.downloaded_files) :
    u ∈ (download_pdf ok st url folder ft).1.downloaded_files := by
  by_cases h1 : url ∈ st.downloaded_files
  · have hb : is_already_downloaded st url = true := by
      simp [is_already_downloaded, List.elem_eq_mem, h1]
    by_cases hft : ft = "policy" <;> simp [download_pdf, hb, hft, h]
  · have hb : is_already_downloaded st url = false := by
      simp [is_already_downloaded, List.elem_eq_mem, h1]
    by_cases h2 : pathJoin folder (urlFilename url) ∈ st.files
    · simp [download_pdf, hb, h2, mark_as_downloaded, h]
    · by_cases h3 : ok url = true
      · by_cases hft : ft = "policy" <;>
          simp [download_pdf, hb, h2, h3, hft, mark_as_downloaded, h]
      · have h3f : ok url = false := by simpa using h3
        simp [download_pdf, hb, h2, h3f, h]

lemma download_pdf_marks (ok : String → Bool) (st : UhcState)
    (url folder ft : String) (hok : ok url = true) :
    url ∈ (download_pdf ok st url folder ft).1.downloaded_files := by
  by_cases hmem : url ∈ st.downloaded_files
  · exact mem_downloaded_files_download_pdf ok st url folder ft hmem
  · have hb : is_already_downloaded st url = false := by
      simp [is_already_downloaded, List.elem_eq_mem, hmem]
    by_cases h2 : pathJoin folder (urlFilename url) ∈ st.files
    · simp [download_pdf, hb, h2, mark_as_downloaded]
    · by_cases hft : ft = "policy" <;>
        simp [download_pdf, hb, h2, hok, hft, mark_as_downloaded]

lemma mem_downloaded_files_uhcRun {u : String} (ok : String → Bool)
    (pol rpub : String) (cands : List (String × String)) :
    ∀ st : UhcState, u ∈ st.downloaded_files →
      u ∈ (uhcRun ok pol rpub st cands).downloaded_files := by
  induction cands with
  | nil => intro st h; simpa [uhcRun] using h
  | cons c tl ih =>
    intro st h
    rw [uhcRun, List.foldl_cons]
    exact ih _ (mem_downloaded_files_download_pdf ok st c.1 _ c.2 h)

lemma all_marked_uhcRun (ok : String → Bool) (pol rpub : String)
    (cands : List (String × String)) :
    ∀ (st : UhcState) (c : String × String), (∀ d ∈ cands, ok d.1 = true) →
      c ∈ cands → c.1 ∈ (uhcRun ok pol rpub st cands).downloaded_files := by
  induction cands with
  | nil => intro st c _ hc; cases hc
  | cons d tl ih =>
    intro st c hok hc
    rw [uhcRun, List.foldl_cons]
    rcases List.mem_cons.mp hc with h | h
    · subst h
      exact mem_downloaded_files_uhcRun ok pol rpub tl _
        (download_pdf_marks ok st c.1 _ c.2 (hok c (List.mem_cons_self c tl)))
    · exact ih _ c (fun r hr => hok r (List.mem_cons_of_mem d hr)) h

lemma uhcRun_all_skip (ok : String → Bool) (pol rpub : String)
    (cands : List (String × String)) :
    ∀ st : UhcState, (∀ c ∈ cands, c.1 ∈ st.downloaded_files) →
      (uhcRun ok pol rpub st cands).downloaded_files = st.downloaded_files
        ∧ (uhcRun ok pol rpub st cands).files = st.files
        ∧ (uhcRun ok pol rpub st cands).session_stats.policies_downloaded
            = st.session_stats.policies_downloaded
        ∧ (uhcRun ok pol rpub st cands).session_stats.rpub_downloaded
            = st.session_stats.rpub_downloaded
        ∧ (uhcRun ok pol rpub st cands).session_stats.errors
            = st.session_stats.errors
        ∧ (uhcRun ok pol rpub st cands).session_stats.policies_skipped
              + (uhcRun ok pol rpub st cands).session_stats.rpub_skipped
            = st.session_stats.policies_skipped
              + st.session_stats.rpub_skipped + cands.length := by
  induction cands with
  | nil =>
    intro st _
    exact ⟨rfl, rfl, rfl, rfl, rfl, rfl⟩
  | cons c tl ih =>
    intro st h
    have hc : c.1 ∈ st.downloaded_files := h c (List.mem_cons_self c tl)
    have hstep : (uhcProcessCandidate ok pol rpub st c)
        = if c.2 = "policy" then
            { st with session_stats := { st.session_stats with
                policies_skipped := st.session_stats.policies_skipped + 1 } }
          else
            { st with session_stats := { st.session_stats with
                rpub_skipped := st.session_stats.rpub_skipped + 1 } } := by
      unfold uhcProcessCandidate
      rw [download_pdf_skip ok st _ c.2 hc]
    rw [uhcRun, List.foldl_cons]
    by_cases hft : c.2 = "policy"
    · rw [hstep, if_pos hft]
      have := ih { st with session_stats := { st.session_stats with
          policies_skipped := st.session_stats.policies_skipped + 1 } }
        (fun d hd => h d (List.mem_cons_of_mem c hd))
      rw [uhcRun] at this
      refine ⟨this.1, this.2.1, this.2.2.1, this.2.2.2.1, this.2.2.2.2.1, ?_⟩
      have h6 := this.2.2.2.2.2
      simp only [List.length_cons]
      simp at h6 ⊢
      omega
    · rw [hstep, if_neg hft]
      have := ih { st with session_stats := { st.session_stats with
          rpub_skipped := st.session_stats.rpub_skipped + 1 } }
        (fun d hd => h d (List.mem_cons_of_mem c hd))
      rw [uhcRun] at this
      refine ⟨this.1, this.2.1, this.2.2.1, this.2.2.2.1, this.2.2.2.2.1, ?_⟩
      have h6 := this.2.2.2.2.2
      simp only [List.length_cons]
      simp at h6 ⊢
      omega

/-- Claim C2.  Idempotence of re-running a sync with identical Fetcher output.
*Humana claims sync*: if every download of the first run succeeds and
candidates carrying the same title carry the same publish date, then a second
`scrape_claims_payment` run over the identical candidate list — reading the
metadata saved by the first run and seeing its files on disk — downloads
nothing (`downloaded = 0`) and skips every candidate
(`skipped = |candidates|`).  *UHC sync*: if every download of the first
session succeeds, a second `run_full_scrape` session over the identical
candidate list reports `downloaded = 0` and its session skip counters sum to
`|candidates|`. -/
theorem c2_second_sync_idempotent
    (old₀ : List HumanaPolicy) (files₀ : List String)
    (ok₁ ok₂ : HumanaPolicy → Bool) (cands : List HumanaPolicy)
    (hok : ∀ p ∈ cands, ok₁ p = true)
    (hcoh : ∀ a ∈ cands, ∀ b ∈ cands, a.title = b.title →
      a.publish_date = b.publish_date)
    (uok₁ uok₂ : String → Bool) (pol rpub : String) (ust₀ : UhcState)
    (ucands : List (String × String)) (huok : ∀ c ∈ ucands, uok₁ c.1 = true) :
    ((scrape_claims_payment
          (scrape_claims_payment old₀ files₀ ok₁ cands).metadata
          (scrape_claims_payment old₀ files₀ ok₁ cands).final.files
          ok₂ cands).final.downloaded = 0
      ∧ (scrape_claims_payment
          (scrape_claims_payment old₀ files₀ ok₁ cands).metadata
          (scrape_claims_payment old₀ files₀ ok₁ cands).final.files
          ok₂ cands).final.skipped = cands.length)
    ∧ ((run_full_scrape_result (uhcRun uok₂ pol rpub
          ⟨(uhcRun uok₁ pol rpub ust₀ ucands).downloaded_files,
           (uhcRun uok₁ pol rpub ust₀ ucands).files,
           ⟨0, 0, 0, 0, []⟩⟩ ucands).session_stats).downloaded = 0
      ∧ (uhcRun uok₂ pol rpub
          ⟨(uhcRun uok₁ pol rpub ust₀ ucands).downloaded_files,
           (uhcRun uok₁ pol rpub ust₀ ucands).files,
           ⟨0, 0, 0, 0, []⟩⟩ ucands).session_stats.policies_skipped
        + (uhcRun uok₂ pol rpub
            ⟨(uhcRun uok₁ pol rpub ust₀ ucands).downloaded_files,
             (uhcRun uok₁ pol rpub ust₀ ucands).files,
             ⟨0, 0, 0, 0, []⟩⟩ ucands).session_stats.rpub_skipped
        = ucands.length) := by
  constructor
  · have hfold : (scrape_claims_payment
          (scrape_claims_payment old₀ files₀ ok₁ cands).metadata
          (scrape_claims_payment old₀ files₀ ok₁ cands).final.files
          ok₂ cands).final
        = { ({ files := (scrape_claims_payment old₀ files₀ ok₁ cands).final.files } :
              HumanaSyncState) with
            skipped := 0 + cands.length } := by
      show cands.foldl (humanaProcessPolicy (load_previous_metadata cands) ok₂)
          { files := (scrape_claims_payment old₀ files₀ ok₁ cands).final.files } = _
      apply humanaFold_all_skip
      intro p hp
      refine ⟨load_previous_metadata_self hp hcoh, ?_⟩
      show p.filename ∈ (scrape_claims_payment old₀ files₀ ok₁ cands).final.files
      exact filename_mem_humanaFold _ ok₁ cands _ p hok hp
    rw [hfold]
    exact ⟨rfl, by simp⟩
  · have h := uhcRun_all_skip uok₂ pol rpub ucands
      ⟨(uhcRun uok₁ pol rpub ust₀ ucands).downloaded_files,
       (uhcRun uok₁ pol rpub ust₀ ucands).files, ⟨0, 0, 0, 0, []⟩⟩
      (fun c hc => all_marked_uhcRun uok₁ pol rpub ucands ust₀ c huok hc)
    refine ⟨?_, ?_⟩
    · have h3 := h.2.2.1
      have h4 := h.2.2.2.1
      simp [run_full_scrape_result, h3, h4]
    · have h6 := h.2.2.2.2.2
      simpa using h6

theorem c2_second_sync_idempotent_witness :
    ((scrape_claims_payment
          (scrape_claims_payment [] [] (fun _ => true)
            [⟨"https://h.test/a", "Title A", "2025-01-01", "Title_A_x9.pdf"⟩]).metadata
          (scrape_claims_payment [] [] (fun _ => true)
            [⟨"https://h.test/a", "Title A", "2025-01-01", "Title_A_x9.pdf"⟩]).final.files
          (fun _ => true)
          [⟨"https://h.test/a", "Title A", "2025-01-01", "Title_A_x9.pdf"⟩]).final.downloaded = 0
      ∧ (scrape_claims_payment
          (scrape_claims_payment [] [] (fun _ => true)
            [⟨"https://h.test/a", "Title A", "2025-01-01", "Title_A_x9.pdf"⟩]).metadata
          (scrape_claims_payment [] [] (fun _ => true)
            [⟨"https://h.test/a", "Title A", "2025-01-01", "Title_A_x9.pdf"⟩]).final.files
          (fun _ => true)
          [⟨"https://h.test/a", "Title A", "2025-01-01", "Title_A_x9.pdf"⟩]).final.skipped
        = ([⟨"https://h.test/a", "Title A", "2025-01-01", "Title_A_x9.pdf"⟩] :
            List HumanaPolicy).length)
    ∧ ((run_full_scrape_result (uhcRun (fun _ => true) "uhc_policies/policies"
          "uhc_policies/rpub_updates"
          ⟨(uhcRun (fun _ => true) "uhc_policies/policies" "uhc_policies/rpub_updates"
              ⟨[], [], ⟨0, 0, 0, 0, []⟩⟩ [("https://x.test/p.pdf", "policy")]).downloaded_files,
           (uhcRun (fun _ => true) "uhc_policies/policies" "uhc_policies/rpub_updates"
              ⟨[], [], ⟨0, 0, 0, 0, []⟩⟩ [("https://x.test/p.pdf", "policy")]).files,
           ⟨0, 0, 0, 0, []⟩⟩
          [("https://x.test/p.pdf", "policy")]).session_stats).downloaded = 0
      ∧ (uhcRun (fun _ => true) "uhc_policies/policies" "uhc_policies/rpub_updates"
          ⟨(uhcRun (fun _ => true) "uhc_policies/policies" "uhc_policies/rpub_updates"
              ⟨[], [], ⟨0, 0, 0, 0, []⟩⟩ [("https://x.test/p.pdf", "policy")]).downloaded_files,
           (uhcRun (fun _ => true) "uhc_policies/policies" "uhc_policies/rpub_updates"
              ⟨[], [], ⟨0, 0, 0, 0, []⟩⟩ [("https://x.test/p.pdf", "policy")]).files,
           ⟨0, 0, 0, 0, []⟩⟩
          [("https://x.test/p.pdf", "policy")]).session_stats.policies_skipped
        + (uhcRun (fun _ => true) "uhc_policies/policies" "uhc_policies/rpub_updates"
            ⟨(uhcRun (fun _ => true) "uhc_policies/policies" "uhc_policies/rpub_updates"
                ⟨[], [], ⟨0, 0, 0, 0, []⟩⟩ [("https://x.test/p.pdf", "policy")]).downloaded_files,
             (uhcRun (fun _ => true) "uhc_policies/policies" "uhc_policies/rpub_updates"
                ⟨[], [], ⟨0, 0, 0, 0, []⟩⟩ [("https://x.test/p.pdf", "policy")]).files,
             ⟨0, 0, 0, 0, []⟩⟩
            [("https://x.test/p.pdf", "policy")]).session_stats.rpub_skipped
        = ([("https://x.test/p.pdf", "policy")] : List (String × String)).length) :=
  c2_second_sync_idempotent [] [] (fun _ => true) (fun _ => true)
    [⟨"https://h.test/a", "Title A", "2025-01-01", "Title_A_x9.pdf"⟩]
    (by decide) (by decide)
    (fun _ => true) (fun _ => true) "uhc_policies/policies" "uhc_policies/rpub_updates"
    ⟨[], [], ⟨0, 0, 0, 0, []⟩⟩ [("https://x.test/p.pdf", "policy")] (by decide)

/-- Scenario candidate: a NEW artifact (title absent from the old metadata). -/
def c4_pNew : HumanaPolicy :=
  ⟨"https://h.test/new", "Title New", "2025-01-02", "Title_New_x1.pdf"⟩

/-- Scenario candidate: an UPDATED artifact (date changed) whose download
fails. -/
def c4_pUpd : HumanaPolicy :=
  ⟨"https://h.test/upd", "Title Upd", "2025-01-02", "Title_Upd_x2.pdf"⟩

/-- Scenario candidate: an UNCHANGED artifact. -/
def c4_pUnch : HumanaPolicy :=
  ⟨"https://h.test/unch", "Title Unch", "2025-01-01", "Title_Unch_x3.pdf"⟩

/-- Previously persisted metadata for the C4 scenario: the updated artifact
with its *old* date, and the unchanged artifact. -/
def c4_old_metadata : List HumanaPolicy :=
  [⟨"https://h.test/upd", "Title Upd", "2025-01-01", "Title_Upd_x2.pdf"⟩, c4_pUnch]

/-- The C4 scenario run: 3 candidates (1 new, 1 updated, 1 unchanged), the
files of the previously known artifacts on disk, and a download environment
in which exactly the updated artifact's materialization fails. -/
def c4_run : HumanaSyncResult :=
  scrape_claims_payment c4_old_metadata
    ["Title_Upd_x2.pdf", "Title_Unch_x3.pdf"]
    (fun p => p.title != "Title Upd")
    [c4_pNew, c4_pUpd, c4_pUnch]

/-- Claim C4, counterexample.  In the Humana claims sync the claim fails on the
spec's own scenario (3 candidates: 1 new, 1 updated whose materialization
fails, 1 unchanged): the fingerprint store — written *before* the download
loop — ends up holding the failed artifact's **new** change token (the claim
says the record must not be updated), the recorded error count is 0 (the
claim says the error is recorded), and the agent reports `downloaded = 2`
from the classification counts even though only 1 artifact materialized
(the claim's scenario expects `fetched = 1, errors = 1`). -/
theorem c4_failure_handling_claim_fails :
    load_previous_metadata c4_run.metadata "Title Upd" = some c4_pUpd
      ∧ (run_humana_claims_outcome c4_run).errors = 0
      ∧ c4_run.final.downloaded = 1
      ∧ (run_humana_claims_outcome c4_run).downloaded = 2
      ∧ c4_run.final.skipped = 1 := by
  decide

lemma download_pdf_fail_state {url : String} (ok : String → Bool)
    (st : UhcState) (folder ft : String) (hnew : url ∉ st.downloaded_files)
    (hloc : pathJoin folder (urlFilename url) ∉ st.files)
    (hfail : ok url = false) :
    (download_pdf ok st url folder ft).1
      = { st with session_stats := { st.session_stats with
          errors := st.session_stats.errors ++ ["Failed to download " ++ url] } }
    ∧ (download_pdf ok st url folder ft).2 = false := by
  have hb : is_already_downloaded st url = false := by
    simp [is_already_downloaded, List.elem_eq_mem, hnew]
  constructor <;> simp [download_pdf, hb, hloc, hfail]

lemma download_pdf_fetch_files {url : String} (ok : String → Bool)
    (st : UhcState) (folder ft : String) (hnew : url ∉ st.downloaded_files)
    (hloc : pathJoin folder (urlFilename url) ∉ st.files)
    (hok : ok url = true) :
    (download_pdf ok st url folder ft).1.files
      = st.files ++ [pathJoin folder (urlFilename url)] := by
  have hb : is_already_downloaded st url = false := by
    simp [is_already_downloaded, List.elem_eq_mem, hnew]
  by_cases hft : ft = "policy" <;>
    simp [download_pdf, hb, hloc, hok, hft, mark_as_downloaded]

lemma humanaProcessPolicy_fail (old : String → Option HumanaPolicy)
    (ok : HumanaPolicy → Bool) (st : HumanaSyncState) (p : HumanaPolicy)
    (hfail : ok p = false) (hmiss : p.filename ∉ st.files) :
    (humanaProcessPolicy old ok st p).files = st.files
      ∧ (humanaProcessPolicy old ok st p).downloaded = st.downloaded := by
  have hcont : (humanaClassify old st p).2.files.contains p.filename = false := by
    rw [humanaClassify_files]
    simp [List.elem_eq_mem, hmiss]
  constructor <;>
    simp [humanaProcessPolicy, hcont, hfail, hmiss, humanaClassify_files,
      (humanaClassify_counts old st p).1]

lemma humanaProcessPolicy_refetch (old : String → Option HumanaPolicy)
    (ok : HumanaPolicy → Bool) (st : HumanaSyncState) (p : HumanaPolicy)
    (hmiss : p.filename ∉ st.files) (hok : ok p = true) :
    (humanaProcessPolicy old ok st p).downloaded = st.downloaded + 1 := by
  have hcont : (humanaClassify old st p).2.files.contains p.filename = false := by
    rw [humanaClassify_files]
    simp [List.elem_eq_mem, hmiss]
  simp [humanaProcessPolicy, hcont, hok, hmiss, humanaClassify_files,
    (humanaClassify_counts old st p).1]

/-- Claim C4, amended.  What the code actually does on a single-artifact
materialization failure.  UHC sync: the error is recorded (one error entry
appended), the store and the filesystem are untouched, the sync continues
(the call merely returns `False`), and re-running with a working environment
fetches the artifact.  Humana claims sync: the metadata file — the
fingerprint store — is written with the *full* candidate list before the
download loop, so the failed artifact's record *is* updated; the failure
itself leaves counters, files and the error report untouched (the agent
always reports `errors = 0`), and the artifact is re-fetched on the next run
only because its local file is missing.  In both cases the job still reaches
COMPLETED, whatever error count the outcome carries. -/
theorem c4_failure_handling_actual :
    (∀ (ok : String → Bool) (st : UhcState) (url folder ft : String),
      url ∉ st.downloaded_files →
      pathJoin folder (urlFilename url) ∉ st.files →
      ok url = false →
      (download_pdf ok st url folder ft).1.downloaded_files = st.downloaded_files
        ∧ (download_pdf ok st url folder ft).1.files = st.files
        ∧ (download_pdf ok st url folder ft).1.session_stats.errors
            = st.session_stats.errors ++ ["Failed to download " ++ url]
        ∧ (download_pdf ok st url folder ft).2 = false)
    ∧ (∀ (ok ok' : String → Bool) (st : UhcState) (url folder ft : String),
        url ∉ st.downloaded_files →
        pathJoin folder (urlFilename url) ∉ st.files →
        ok url = false → ok' url = true →
        (download_pdf ok' (download_pdf ok st url folder ft).1
            url folder ft).1.files
          = st.files ++ [pathJoin folder (urlFilename url)])
    ∧ (∀ (old : List HumanaPolicy) (files₀ : List String)
        (ok : HumanaPolicy → Bool) (cands : List HumanaPolicy),
        (scrape_claims_payment old files₀ ok cands).metadata = cands)
    ∧ (∀ (old : String → Option HumanaPolicy) (ok : HumanaPolicy → Bool)
        (st : HumanaSyncState) (p : HumanaPolicy),
        ok p = false → p.filename ∉ st.files →
        (humanaProcessPolicy old ok st p).files = st.files
          ∧ (humanaProcessPolicy old ok st p).downloaded = st.downloaded)
    ∧ (∀ (old : String → Option HumanaPolicy) (ok : HumanaPolicy → Bool)
        (st : HumanaSyncState) (p : HumanaPolicy),
        p.filename ∉ st.files → ok p = true →
        (humanaProcessPolicy old ok st p).downloaded = st.downloaded + 1)
    ∧ (∀ (j : ScrapingJob) (o : ScraperOutcome),
        (run_job_success j o).status = .completed) := by
  refine ⟨?_, ?_, ?_, ?_, ?_, ?_⟩
  · intro ok st url folder ft hnew hloc hfail
    have hst := (download_pdf_fail_state ok st folder ft hnew hloc hfail).1
    refine ⟨?_, ?_, ?_, (download_pdf_fail_state ok st folder ft hnew hloc hfail).2⟩
      <;> rw [hst]
  · intro ok ok' st url folder ft hnew hloc hfail hok
    have hst := (download_pdf_fail_state ok st folder ft hnew hloc hfail).1
    rw [hst]
    exact download_pdf_fetch_files ok' _ folder ft hnew hloc hok
  · intro old files₀ ok cands
    rfl
  · intro old ok st p hfail hmiss
    exact humanaProcessPolicy_fail old ok st p hfail hmiss
  · intro old ok st p hmiss hok
    exact humanaProcessPolicy_refetch old ok st p hmiss hok
  · intro j o
    rfl

theorem c4_failure_handling_actual_witness :
    ((download_pdf (fun _ => false) ⟨[], [], ⟨0, 0, 0, 0, []⟩⟩
        "https://x.test/r.pdf" "uhc_policies/policies" "policy").1.session_stats.errors
      = ([] : List String) ++ ["Failed to download " ++ "https://x.test/r.pdf"])
    ∧ (download_pdf (fun _ => true)
        (download_pdf (fun _ => false) ⟨[], [], ⟨0, 0, 0, 0, []⟩⟩
          "https://x.test/r.pdf" "uhc_policies/policies" "policy").1
        "https://x.test/r.pdf" "uhc_policies/policies" "policy").1.files
      = ([] : List String)
          ++ [pathJoin "uhc_policies/policies" (urlFilename "https://x.test/r.pdf")]
    ∧ (humanaProcessPolicy (load_previous_metadata []) (fun _ => true)
        { files := ([] : List String) } c4_pNew).downloaded
      = ({ files := ([] : List String) } : HumanaSyncState).downloaded + 1
    ∧ (run_job_success ⟨"uhc_policies_1700000004", .uhc_policies, .running, 0, 0, []⟩
        ⟨3, 0, 1⟩).status = .completed :=
  ⟨(c4_failure_handling_actual.1 (fun _ => false) ⟨[], [], ⟨0, 0, 0, 0, []⟩⟩
      "https://x.test/r.pdf" "uhc_policies/policies" "policy"
      (by decide) (by decide) rfl).2.2.1,
   c4_failure_handling_actual.2.1 (fun _ => false) (fun _ => true)
      ⟨[], [], ⟨0, 0, 0, 0, []⟩⟩ "https://x.test/r.pdf" "uhc_policies/policies"
      "policy" (by decide) (by decide) rfl rfl,
   c4_failure_handling_actual.2.2.2.2.1 (load_previous_metadata [])
      (fun _ => true) { files := ([] : List String) } c4_pNew (by decide) rfl,
   c4_failure_handling_actual.2.2.2.2.2
      ⟨"uhc_policies_1700000004", .uhc_policies, .running, 0, 0, []⟩ ⟨3, 0, 1⟩⟩

/-! ## Humana policy downloader (`humana_ingest_2.py`): collision-safe naming

The duplicate-handling loop of `move_and_rename_file` appends `_1`, `_2`, …
to the name until a non-existing path is found.  To model the unbounded
`while` loop as a total function we first prove that the decimal rendering
`Nat.repr` is injective, so that only finitely many counters can collide with
a finite directory listing. -/

/-- Numeric value of a decimal digit character. -/
def digitVal (c : Char) : Nat := c.toNat - '0'.toNat

/-- Value of a most-significant-first decimal character list. -/
def digitsVal (l : List Char) : Nat := l.foldl (fun a c => 10 * a + digitVal c) 0

lemma digitVal_digitChar : ∀ d, d < 10 → digitVal (Nat.digitChar d) = d := by decide

lemma digitsVal_foldl (a : Nat) (l : List Char) :
    l.foldl (fun x c => 10 * x + digitVal c) a
      = a * 10 ^ l.length + digitsVal l := by
  induction l generalizing a with
  | nil => simp [digitsVal]
  | cons c tl ih =>
    rw [List.foldl_cons, ih (10 * a + digitVal c)]
    have h2 : digitsVal (c :: tl) = digitVal c * 10 ^ tl.length + digitsVal tl := by
      show List.foldl _ _ (c :: tl) = _
      rw [List.foldl_cons, ih (10 * 0 + digitVal c)]
      ring_nf
    rw [h2, List.length_cons]
    ring

lemma digitsVal_cons (c : Char) (l : List Char) :
    digitsVal (c :: l) = digitVal c * 10 ^ l.length + digitsVal l := by
  show List.foldl _ _ (c :: l) = _
  rw [List.foldl_cons, digitsVal_foldl (10 * 0 + digitVal c)]
  ring_nf

lemma toDigitsCore_val : ∀ (fuel n : Nat) (ds : List Char), n < 10 ^ fuel →
    digitsVal (Nat.toDigitsCore 10 fuel n ds)
      = n * 10 ^ ds.length + digitsVal ds := by
  intro fuel
  induction fuel with
  | zero =>
    intro n ds h
    have hn : n = 0 := Nat.lt_one_iff.mp (by simpa using h)
    subst hn
    simp [Nat.toDigitsCore]
  | succ f ih =>
    intro n ds h
    by_cases h0 : n / 10 = 0
    · have hlt : n < 10 := by
        by_contra hge
        push_neg at hge
        have := Nat.div_le_div_right (c := 10) hge
        simp at this
        omega
      simp only [Nat.toDigitsCore, h0, if_true]
      rw [digitsVal_cons, digitVal_digitChar _ (Nat.mod_lt _ (by norm_num))]
      rw [Nat.mod_eq_of_lt hlt]
    · simp only [Nat.toDigitsCore, h0, if_false]
      rw [ih (n / 10) _ (Nat.nat_repr_len_aux n 10 f (by norm_num) h)]
      rw [digitsVal_cons, digitVal_digitChar _ (Nat.mod_lt _ (by norm_num)),
        List.length_cons]
      have key : n / 10 * 10 ^ (ds.length + 1) + n % 10 * 10 ^ ds.length
          = n * 10 ^ ds.length := by
        calc n / 10 * 10 ^ (ds.length + 1) + n % 10 * 10 ^ ds.length
            = (10 * (n / 10) + n % 10) * 10 ^ ds.length := by ring
          _ = n * 10 ^ ds.length := by rw [Nat.div_add_mod]
      rw [← key]
      ring

lemma digitsVal_repr (n : Nat) : digitsVal (Nat.repr n).data = n := by
  have hlt : n < 10 ^ (n + 1) := by
    calc n < 10 ^ n := Nat.lt_pow_self (by norm_num) n
      _ ≤ 10 ^ (n + 1) := Nat.pow_le_pow_right (by norm_num) (Nat.le_succ n)
  show digitsVal (Nat.toDigits 10 n) = n
  unfold Nat.toDigits
  rw [toDigitsCore_val (n + 1) n [] hlt]
  simp [digitsVal]

lemma nat_repr_injective : Function.Injective Nat.repr := by
  intro a b h
  have hd : digitsVal (Nat.repr a).data = digitsVal (Nat.repr b).data := by rw [h]
  rwa [digitsVal_repr, digitsVal_repr] at hd

/-- The `clean_name` computation of `move_and_rename_file`:
`re.sub(r'[<>:"/\\|?*,®™]', '_', policy_name).replace(' ', '_')`, truncated to
200 characters when longer.  String traversals are written on the character
list so that they compute by structural recursion. -/
def cleanName (policy_name : String) : String :=
  let cleaned := String.mk (((policy_name.data.map (fun c =>
    if c = '<' ∨ c = '>' ∨ c = ':' ∨ c = '"' ∨ c = '/' ∨ c = '\\' ∨ c = '|'
        ∨ c = '?' ∨ c = '*' ∨ c = ',' ∨ c = '®' ∨ c = '™' then '_' else c))).map
    (fun c => if c = ' ' then '_' else c))
  if cleaned.length > 200 then String.mk (cleaned.data.take 200) else cleaned

/-- Source `name_part` inside the duplicate loop:
`clean_name[:190] if len(clean_name) > 190 else clean_name`. -/
def namePart (clean_name : String) : String :=
  if clean_name.length > 190 then String.mk (clean_name.data.take 190)
  else clean_name

/-- The initial target `os.path.join(folder, f"{clean_name}.pdf")`, where
`folder` stands for the joined `download_folder/subfolder`. -/
def basePath (folder clean_name : String) : String :=
  folder ++ "/" ++ (clean_name ++ ".pdf")

/-- Candidate path for duplicate counter `c`:
`os.path.join(folder, f"{name_part}_{counter}.pdf")`. -/
def suffixPath (folder name_part : String) (c : Nat) : String :=
  folder ++ "/" ++ (name_part ++ "_" ++ Nat.repr c ++ ".pdf")

lemma suffixPath_injective (folder part : String) :
    Function.Injective (suffixPath folder part) := by
  intro a b h
  apply nat_repr_injective
  have hd : (suffixPath folder part a).data = (suffixPath folder part b).data := by
    rw [h]
  simp only [suffixPath, String.data_append, List.append_assoc] at hd
  have h1 := List.append_cancel_left hd
  have h2 := List.append_cancel_left h1
  have h3 := List.append_cancel_left h2
  have h4 := List.append_cancel_left h3
  have h5 := List.append_cancel_right h4
  exact String.ext h5

lemma suffixPath_free_exists (files : List String) (folder part : String) :
    ∃ k, suffixPath folder part (k + 1) ∉ files := by
  by_contra hall
  push_neg at hall
  have hinj : Function.Injective (fun k => suffixPath folder part (k + 1)) :=
    fun a b h => by
      have := suffixPath_injective folder part h
      omega
  have hsub : ((List.range (files.length + 1)).map
      (fun k => suffixPath folder part (k + 1))) ⊆ files := by
    intro x hx
    obtain ⟨k, _, rfl⟩ := List.mem_map.mp hx
    exact hall k
  have hnd : ((List.range (files.length + 1)).map
      (fun k => suffixPath folder part (k + 1))).Nodup :=
    List.Nodup.map hinj (List.nodup_range _)
  have hlen := (List.subperm_of_subset hnd hsub).length_le
  simp at hlen

/-- The target path chosen by `move_and_rename_file`:
`new_path = folder/clean_name.pdf; counter = 1;
while os.path.exists(new_path):
  new_path = folder/name_part_counter.pdf; counter += 1`.
The loop carries **no iteration cap and no naming-exhaustion error**; it
terminates only because the directory listing `files` is finite, returning
the first candidate that does not exist. -/
def move_and_rename_target (files : List String) (folder policy_name : String) :
    String :=
  let clean_name := cleanName policy_name
  if basePath folder clean_name ∈ files then
    suffixPath folder (namePart clean_name)
      (Nat.find (suffixPath_free_exists files folder (namePart clean_name)) + 1)
  else basePath folder clean_name

/-- Claim C8, amended.  Collision handling appends `_1`, `_2`, … before the
`.pdf` extension until the first free name and never overwrites an existing
file; but the search is *uncapped* — the code contains no attempt limit and
no naming-exhaustion error, terminating only by finiteness of the directory.
-/
theorem c8_collision_naming_free (files : List String) (folder policy_name : String) :
    move_and_rename_target files folder policy_name ∉ files
      ∧ (basePath folder (cleanName policy_name) ∉ files →
          move_and_rename_target files folder policy_name
            = basePath folder (cleanName policy_name))
      ∧ (basePath folder (cleanName policy_name) ∈ files →
          ∃ c, 1 ≤ c
            ∧ move_and_rename_target files folder policy_name
                = suffixPath folder (namePart (cleanName policy_name)) c
            ∧ ∀ k, 1 ≤ k → k < c →
                suffixPath folder (namePart (cleanName policy_name)) k ∈ files) := by
  by_cases hbase : basePath folder (cleanName policy_name) ∈ files
  · have hres : move_and_rename_target files folder policy_name
        = suffixPath folder (namePart (cleanName policy_name))
            (Nat.find (suffixPath_free_exists files folder
              (namePart (cleanName policy_name))) + 1) := by
      unfold move_and_rename_target
      rw [if_pos hbase]
    refine ⟨?_, fun h => absurd hbase h, fun _ => ?_⟩
    · rw [hres]
      exact Nat.find_spec (suffixPath_free_exists files folder
        (namePart (cleanName policy_name)))
    · refine ⟨Nat.find (suffixPath_free_exists files folder
          (namePart (cleanName policy_name))) + 1, by omega, hres, ?_⟩
      intro k hk1 hklt
      have hmin := Nat.find_min (suffixPath_free_exists files folder
        (namePart (cleanName policy_name))) (m := k - 1) (by omega)
      simpa [Nat.sub_add_cancel hk1] using hmin
  · have hres : move_and_rename_target files folder policy_name
        = basePath folder (cleanName policy_name) := by
      unfold move_and_rename_target
      rw [if_neg hbase]
    exact ⟨hres ▸ hbase, fun _ => hres, fun h => absurd h hbase⟩

theorem c8_collision_naming_free_witness :
    move_and_rename_target
        [basePath "humana_policies/medical_policies" (cleanName "Policy Name")]
        "humana_policies/medical_policies" "Policy Name"
      ∉ [basePath "humana_policies/medical_policies" (cleanName "Policy Name")] :=
  (c8_collision_naming_free
    [basePath "humana_policies/medical_policies" (cleanName "Policy Name")]
    "humana_policies/medical_policies" "Policy Name").1

/-- Directory listing with the base name and 5000 consecutive suffixed
collision names all present. -/
def c8_collisions : List String :=
  basePath "humana_policies/medical_policies" "Policy" ::
    (List.range 5000).map
      (fun k => suffixPath "humana_policies/medical_policies" "Policy" (k + 1))

/-- Claim C8, counterexample.  The search is *not* capped at a few thousand
attempts and never raises a naming-exhaustion error: faced with the base name
and 5000 consecutive collision names, `move_and_rename_file` runs the loop
past counter 5000 and returns the free name with suffix `_5001`. -/
theorem c8_uncapped_search_returns_free_name :
    move_and_rename_target c8_collisions "humana_policies/medical_policies" "Policy"
        = suffixPath "humana_policies/medical_policies" "Policy" 5001
      ∧ suffixPath "humana_policies/medical_policies" "Policy" 5001 ∉ c8_collisions := by
  have hclean : cleanName "Policy" = "Policy" := by decide
  have hpart : namePart (cleanName "Policy") = "Policy" := by decide
  have hnotmem : suffixPath "humana_policies/medical_policies" "Policy" 5001
      ∉ c8_collisions := by
    intro hmem
    rcases List.mem_cons.mp hmem with h | h
    · exact absurd h (by decide)
    · obtain ⟨k, hk, heq⟩ := List.mem_map.mp h
      have := suffixPath_injective "humana_policies/medical_policies" "Policy" heq.symm
      have hk' := List.mem_range.mp hk
      omega
  refine ⟨?_, hnotmem⟩
  have hbase : basePath "humana_policies/medical_policies" (cleanName "Policy")
      ∈ c8_collisions := by
    rw [hclean]
    exact List.mem_cons_self _ _
  unfold move_and_rename_target
  rw [if_pos hbase]
  have hfind : Nat.find (suffixPath_free_exists c8_collisions
      "humana_policies/medical_policies" (namePart (cleanName "Policy"))) = 5000 := by
    rw [Nat.find_eq_iff]
    constructor
    · rw [hpart]
      exact hnotmem
    · intro m hm
      simp only [not_not]
      rw [hpart]
      exact List.mem_cons_of_mem _
        (List.mem_map.mpr ⟨m, List.mem_range.mpr hm, rfl⟩)
  rw [hfind, hpart]

end MedPolicy
